import Mathlib

/-
Verification of the concurrency-control core of the zeroLight backend:
the distributed lock manager (lockService), the optimistic-concurrency
user update protocol (userService), and the session reconciliation state
machine (sessionService).  The TypeScript source is shallowly embedded as
pure Lean functions over an explicit database state; timestamps are Int
milliseconds, the clock advances only across the retry sleeps of the lock
acquisition loop.
-/

namespace ZeroLight

/-! ## Lock store (table `distributed_locks`) -/

/-- A row of the distributed lock table: `lockKey` (unique), `lockOwner`
(the uuid of the holder), `expiresAt` (ms timestamp). -/
structure LockRecord where
  lockKey : String
  lockOwner : String
  expiresAt : Int
deriving Repr, DecidableEq

abbrev LockStore := List LockRecord

/-- `prisma.distributedLock.findUnique({where:{lockKey}})`: the unique
constraint means an insert fails exactly when this is `some`. -/
def lookupLock (ls : LockStore) (key : String) : Option LockRecord :=
  ls.find? (fun r => r.lockKey == key)

/-- The rows deleted by
`deleteMany({where:{lockKey, expiresAt:{lt: now}}})`. -/
def expiredForKey (ls : LockStore) (key : String) (now : Int) : LockStore :=
  ls.filter (fun r => r.lockKey == key && decide (r.expiresAt < now))

/-- The store after `deleteMany({where:{lockKey, expiresAt:{lt: now}}})`. -/
def reapKey (ls : LockStore) (key : String) (now : Int) : LockStore :=
  ls.filter (fun r => !(r.lockKey == key && decide (r.expiresAt < now)))

/-- `releaseLock`'s `deleteMany({where:{lockKey, lockOwner}})`: rows are
deleted only when both key and owner match. -/
def removeLock (ls : LockStore) (key owner : String) : LockStore :=
  ls.filter (fun r => !(r.lockKey == key && r.lockOwner == owner))

/-- State threaded through `acquireLock`: the lock table, the clock, and
the total time slept so far in the retry loop. -/
structure AcqState where
  locks : LockStore
  now : Int
  slept : Nat
deriving Repr, DecidableEq

/-- The body of `acquireLock`'s `for (let attempt = 0; attempt <= retries;
attempt++)` loop.  `fuel` is the number of loop iterations left
(`retries + 1 - attempt`; the source loop exits when `attempt > retries`).
Each iteration tries the insert; on a unique-constraint violation it
deletes expired rows for the key and, if any were deleted, continues
immediately (`continue` still runs `attempt++`); otherwise if
`attempt < retries` it sleeps `retryDelay * (attempt + 1)` and continues;
otherwise it gives up.  `lockExp` is the `expiresAt` computed once before
the loop. -/
def acquireLoop (key owner : String) (lockExp : Int) (retries retryDelay : Nat) :
    Nat → Nat → AcqState → Option String × AcqState
  | _, 0, s => (none, s)
  | attempt, fuel + 1, s =>
    match lookupLock s.locks key with
    | none => (some owner, ⟨⟨key, owner, lockExp⟩ :: s.locks, s.now, s.slept⟩)
    | some _ =>
      if (expiredForKey s.locks key s.now).length > 0 then
        acquireLoop key owner lockExp retries retryDelay (attempt + 1) fuel
          ⟨reapKey s.locks key s.now, s.now, s.slept⟩
      else if attempt < retries then
        acquireLoop key owner lockExp retries retryDelay (attempt + 1) fuel
          ⟨s.locks, s.now + (retryDelay * (attempt + 1) : Nat), s.slept + retryDelay * (attempt + 1)⟩
      else (none, s)

/-- `acquireLock(lockKey, options)`: computes `expiresAt = now + timeout`
once, then runs the retry loop from `attempt = 0`.  Returns the owner
token on success, `none` on failure (the source returns `null`). -/
def acquireLock (key owner : String) (timeout retries retryDelay : Nat)
    (locks : LockStore) (now : Int) : Option String × AcqState :=
  acquireLoop key owner (now + timeout) retries retryDelay 0 (retries + 1) ⟨locks, now, 0⟩

/-! ## Application data model (tables `sessions` and `users`) -/

/-- A row of the `sessions` table. -/
structure Session where
  id : Nat
  userId : String
  deviceId : String
  deviceName : Option String
  deviceModel : Option String
  platform : String
  osVersion : Option String
  appVersion : Option String
  pushToken : Option String
  pushTokenUpdatedAt : Option Int
  isActive : Bool
  ipAddress : Option String
  idempotencyKey : Option String
  createdAt : Int
  lastActivityAt : Int
  expiresAt : Int
  terminatedAt : Option Int
  terminationReason : Option String
deriving Repr, DecidableEq

/-- A row of the `users` table (the VersionedEntity of the spec). -/
structure UserRec where
  id : String
  privyId : String
  email : Option String
  phone : Option String
  displayName : Option String
  profilePictureUrl : Option String
  walletAddress : Option String
  walletRegisteredAt : Option Int
  status : String
  createdAt : Int
  updatedAt : Int
  lastActiveAt : Option Int
  version : Nat
deriving Repr, DecidableEq

/-- The application tables plus the id-allocation counter and the clock. -/
structure AppDb where
  sessions : List Session
  users : List UserRec
  nextId : Nat
  now : Int
deriving Repr, DecidableEq

/-- Whole database state: the lock table, a seed for fresh owner tokens
(standing in for `uuidv4()`), and the application tables. -/
structure Db where
  locks : LockStore
  ownerSeed : Nat
  app : AppDb
deriving Repr, DecidableEq

/-- The `DatabaseResponse<T>` shape every service returns:
`{data, error, success}`. -/
structure DatabaseResponse (T : Type) where
  data : Option T
  error : Option String
  success : Bool
deriving Repr, DecidableEq

/-- `LockOptions` with all fields resolved (source defaults:
timeout 30000, retries 10, retryDelay 300). -/
structure LockOptions where
  timeout : Nat
  retries : Nat
  retryDelay : Nat
deriving Repr, DecidableEq

/-- Outcome of `withLock`: `fn`'s value, `fn`'s exception propagated, or
the `Failed to acquire lock` error thrown on acquisition failure. -/
inductive WLResult (E T : Type) where
  | ok (t : T)
  | fnErr (e : E)
  | lockFailed
deriving Repr, DecidableEq

/-- `getSessionLockKey`. -/
def sessionLockKey (userId deviceId : String) : String :=
  "session:" ++ userId ++ ":" ++ deviceId

/-- `getUserLockKey`. -/
def userLockKey (userId : String) : String :=
  "user:" ++ userId

/-- The acquisition half of `withLock`: generate a fresh owner token and
call `acquireLock`; the lock table and the clock (advanced by the sleeps)
are written back into the database state. -/
def withLockAcq (key : String) (opts : LockOptions) (st : Db) : Option String × Db :=
  let owner := "owner-" ++ toString st.ownerSeed
  let a := acquireLock key owner opts.timeout opts.retries opts.retryDelay st.locks st.app.now
  (a.1, { locks := a.2.locks, ownerSeed := st.ownerSeed + 1,
          app := { st.app with now := a.2.now } })

/-- `withLock(lockKey, fn, options)`: acquire; on failure throw
(`lockFailed`); otherwise run `fn` and release in a `finally`, so the
release runs both when `fn` returns and when it throws. -/
def withLock {E T : Type} (key : String) (fn : Db → Except E T × Db)
    (opts : LockOptions) (st : Db) : WLResult E T × Db :=
  match withLockAcq key opts st with
  | (none, st1) => (.lockFailed, st1)
  | (some o, st1) =>
    match fn st1 with
    | (.ok t, st2) => (.ok t, { st2 with locks := removeLock st2.locks key o })
    | (.error e, st2) => (.fnErr e, { st2 with locks := removeLock st2.locks key o })

/-- Lift a transaction body that touches only the application tables (and
never throws) into the shape `withLock` expects. -/
def exceptOk {E T : Type} (f : AppDb → T × AppDb) : Db → Except E T × Db :=
  fun st => ((Except.ok (f st.app).1), { st with app := (f st.app).2 })

/-- Lift a possibly-throwing body that touches only the application
tables into the shape `withLock` expects. -/
def liftAppE {E T : Type} (f : AppDb → Except E T × AppDb) : Db → Except E T × Db :=
  fun st => ((f st.app).1, { st with app := (f st.app).2 })

/-! ## Session service (`sessionService.ts`) -/

/-- `CreateSessionInput`. -/
structure CreateSessionInput where
  userId : String
  deviceId : String
  deviceName : Option String
  deviceModel : Option String
  platform : String
  osVersion : Option String
  appVersion : Option String
  pushToken : Option String
  ipAddress : Option String
  idempotencyKey : Option String
  expiresInDays : Option Nat
deriving Repr, DecidableEq

/-- JavaScript truthiness of an optional string (absent and the empty
string are falsy). -/
def truthy (o : Option String) : Bool :=
  match o with
  | some v => v != ""
  | none => false

/-- `x || null`: keep a truthy value, otherwise store null. -/
def strTruthy (o : Option String) : Option String :=
  if truthy o then o else none

/-- The conditional spread `...(input.f && { f: input.f })`: keep the old
value unless a truthy new one is supplied. -/
def mergeField (newVal old : Option String) : Option String :=
  if truthy newVal then newVal else old

/-- `input.expiresInDays || DEFAULT_SESSION_EXPIRY_DAYS` (30). -/
def expiryDays (inp : CreateSessionInput) : Nat :=
  match inp.expiresInDays with
  | some d => if d == 0 then 30 else d
  | none => 30

/-- Milliseconds per day: `expiresAt.setDate(getDate() + expiresInDays)`
is modelled as adding `expiresInDays` days to the clock. -/
def dayMs : Int := 86400000

/-- The accumulator step of `findFirst({orderBy:{createdAt: 'desc'}})`:
keep the row with the larger `createdAt`. -/
def pickLater (acc : Option Session) (s : Session) : Option Session :=
  match acc with
  | none => some s
  | some b => if s.createdAt > b.createdAt then some s else some b

/-- `findFirst({where:{userId, deviceId}, orderBy:{createdAt:'desc'}})`:
the most recently created session for the pair, if any. -/
def findLatestSession (ss : List Session) (userId deviceId : String) : Option Session :=
  (ss.filter (fun s => s.userId == userId && s.deviceId == deviceId)).foldl pickLater none

/-- The reactivation `tx.session.update` data: set active, clear the
termination fields, refresh activity and expiry, merge truthy metadata. -/
def reactivateSession (inp : CreateSessionInput) (now expAt : Int) (s : Session) : Session :=
  { s with
    isActive := true
    terminatedAt := none
    terminationReason := none
    lastActivityAt := now
    expiresAt := expAt
    deviceName := mergeField inp.deviceName s.deviceName
    deviceModel := mergeField inp.deviceModel s.deviceModel
    osVersion := mergeField inp.osVersion s.osVersion
    appVersion := mergeField inp.appVersion s.appVersion
    pushToken := mergeField inp.pushToken s.pushToken
    pushTokenUpdatedAt := if truthy inp.pushToken then some now else s.pushTokenUpdatedAt
    ipAddress := mergeField inp.ipAddress s.ipAddress }

/-- The termination write shared by every `updateMany` that deactivates
sessions. -/
def terminateRow (now : Int) (reason : String) (s : Session) : Session :=
  { s with isActive := false, terminatedAt := some now, terminationReason := some reason }

/-- `updateMany({where:{userId, isActive:true, NOT:{id: keepId}}, ...})`
with reason `new_session_on_different_device`. -/
def terminateOtherDevices (ss : List Session) (userId : String) (keepId : Nat) (now : Int) :
    List Session :=
  ss.map (fun s =>
    if s.userId == userId && s.isActive && s.id != keepId
    then terminateRow now "new_session_on_different_device" s else s)

/-- `updateMany({where:{userId, isActive:true}, ...})` with the given
reason. -/
def terminateAllActive (ss : List Session) (userId : String) (now : Int) (reason : String) :
    List Session :=
  ss.map (fun s =>
    if s.userId == userId && s.isActive then terminateRow now reason s else s)

/-- The row built by `tx.session.create` for a first-time device. -/
def newSessionRow (inp : CreateSessionInput) (id : Nat) (now expAt : Int) : Session :=
  { id := id
    userId := inp.userId
    deviceId := inp.deviceId
    deviceName := strTruthy inp.deviceName
    deviceModel := strTruthy inp.deviceModel
    platform := inp.platform
    osVersion := strTruthy inp.osVersion
    appVersion := strTruthy inp.appVersion
    pushToken := strTruthy inp.pushToken
    pushTokenUpdatedAt := if truthy inp.pushToken then some now else none
    isActive := true
    ipAddress := strTruthy inp.ipAddress
    idempotencyKey := strTruthy inp.idempotencyKey
    createdAt := now
    lastActivityAt := now
    expiresAt := expAt
    terminatedAt := none
    terminationReason := none }

/-- The message of the Prisma P2002 error thrown when `tx.session.create`
violates the unique constraint on `sessions.idempotency_key`
(`idempotency_key VARCHAR(255) UNIQUE` in supabase_setup.sql, the
partial unique index `unique_idempotency_key` in 001_initial_schema.sql).
The exact text is produced by the Prisma client at runtime, not by this
repository's source; any fixed string distinct from the lock-acquisition
message represents it faithfully, since `getOrCreateSession`'s catch
returns `error.message` verbatim. -/
def p2002IdempotencyMsg : String :=
  "Unique constraint failed on the fields: (idempotency_key)"

/-- Whether the row `tx.session.create` is about to insert violates the
unique constraint on `idempotency_key`: the inserted value
(`input.idempotencyKey || null`) is non-null and some stored row already
carries it.  NULLs never collide (the constraint is a partial unique
index over non-null keys). -/
def dupIdemKey (ss : List Session) (inp : CreateSessionInput) : Bool :=
  truthy inp.idempotencyKey &&
    ss.any (fun s => s.idempotencyKey == strTruthy inp.idempotencyKey)

/-- The transaction body of `getOrCreateSession`: look up any session for
the (userId, deviceId) pair; reactivate it and terminate the other
devices' active sessions (an update that writes none of the unique
columns, so it cannot violate a constraint), or terminate the user's
active sessions and create a fresh row.  On the create path,
`tx.session.create` throws P2002 when the supplied idempotency key
already exists on another row (sessionService.ts logs exactly this case);
the transaction then rolls back — including the `updateMany` that ran
before the insert — leaving the tables unchanged, and the error
propagates.  Both surviving paths return `success: true`. -/
def sessionRun (inp : CreateSessionInput) (a : AppDb) :
    Except String (DatabaseResponse Session) × AppDb :=
  match findLatestSession a.sessions inp.userId inp.deviceId with
  | some e =>
    let expAt := a.now + (expiryDays inp : Int) * dayMs
    let upd := reactivateSession inp a.now expAt e
    let ss1 := a.sessions.map (fun s => if s.id == e.id then upd else s)
    let ss2 := terminateOtherDevices ss1 inp.userId e.id a.now
    (.ok ⟨some upd, none, true⟩, { a with sessions := ss2 })
  | none =>
    if dupIdemKey a.sessions inp then
      (.error p2002IdempotencyMsg, a)
    else
      let ss1 := terminateAllActive a.sessions inp.userId a.now "new_session_on_different_device"
      let expAt := a.now + (expiryDays inp : Int) * dayMs
      let news := newSessionRow inp a.nextId a.now expAt
      (.ok ⟨some news, none, true⟩, { a with sessions := ss1 ++ [news], nextId := a.nextId + 1 })

/-- `getOrCreateSession`: run the transaction under the per-(user,device)
lock with `{timeout: 5000, retries: 3}` (retryDelay defaulting to 300).
The surrounding `try/catch` converts both the lock-acquisition exception
and a P2002 thrown inside the transaction into a failed
`DatabaseResponse` carrying the error message; the lock is released by
`withLock`'s `finally` on both paths. -/
def getOrCreateSession (inp : CreateSessionInput) (st : Db) : DatabaseResponse Session × Db :=
  let key := sessionLockKey inp.userId inp.deviceId
  match withLock key (liftAppE (sessionRun inp)) ⟨5000, 3, 300⟩ st with
  | (.ok r, st1) => (r, st1)
  | (.fnErr e, st1) => (⟨none, some e, false⟩, st1)
  | (.lockFailed, st1) => (⟨none, some ("Failed to acquire lock: " ++ key), false⟩, st1)

/-! ## User service (userService) -/

/-- `UpdateUserInput`. -/
structure UpdateUserInput where
  email : Option String
  phone : Option String
  displayName : Option String
  profilePictureUrl : Option String
  walletAddress : Option String
  status : Option String
  lastActiveAt : Option Int
deriving Repr, DecidableEq

/-- `findUnique({where:{id}})` on the users table. -/
def findUser (us : List UserRec) (id : String) : Option UserRec :=
  us.find? (fun u => u.id == id)

/-- `findUnique({where:{walletAddress}})`. -/
def findUserByWallet (us : List UserRec) (w : String) : Option UserRec :=
  us.find? (fun u => u.walletAddress == some w)

/-- The `...input` spread inside `tx.user.update`: a supplied field
replaces the stored one, an absent field is left alone. -/
def patchField {α : Type} (newVal : Option α) (old : Option α) : Option α :=
  match newVal with
  | some v => some v
  | none => old

/-- Apply the `...input` spread of `updateUser` to a stored row. -/
def applyUserPatch (inp : UpdateUserInput) (u : UserRec) : UserRec :=
  { u with
    email := patchField inp.email u.email
    phone := patchField inp.phone u.phone
    displayName := patchField inp.displayName u.displayName
    profilePictureUrl := patchField inp.profilePictureUrl u.profilePictureUrl
    walletAddress := patchField inp.walletAddress u.walletAddress
    status := (patchField inp.status (some u.status)).getD u.status
    lastActiveAt := patchField inp.lastActiveAt u.lastActiveAt }

/-- `currentVersion !== undefined && currentUser.version !== currentVersion`. -/
def versionMismatch (cv : Option Nat) (stored : Nat) : Bool :=
  match cv with
  | some v => stored != v
  | none => false

/-- The wallet uniqueness check of `updateUser`: a truthy new wallet that
differs from the stored one and is already registered to another user. -/
def walletCollision (us : List UserRec) (userId : String) (inp : UpdateUserInput)
    (u : UserRec) : Bool :=
  truthy inp.walletAddress && inp.walletAddress != u.walletAddress &&
    (match inp.walletAddress with
     | some w =>
       match findUserByWallet us w with
       | some other => other.id != userId
       | none => false
     | none => false)

/-- The transaction body of `updateUser`: read the row; fail `NotFound`
if absent; fail the optimistic-version check; fail a wallet collision;
otherwise apply the patch with `version + 1` and `updatedAt = now`. -/
def userRun (userId : String) (inp : UpdateUserInput) (currentVersion : Option Nat)
    (a : AppDb) : DatabaseResponse UserRec × AppDb :=
  match findUser a.users userId with
  | none => (⟨none, some "User not found", false⟩, a)
  | some u =>
    if versionMismatch currentVersion u.version then
      (⟨none, some "User has been modified by another request. Please retry.", false⟩, a)
    else if walletCollision a.users userId inp u then
      (⟨none, some "Wallet address already registered", false⟩, a)
    else
      let u1 := applyUserPatch inp u
      let u2 := { u1 with
        walletRegisteredAt :=
          if truthy inp.walletAddress && u.walletAddress == none
          then some a.now else u.walletRegisteredAt
        version := u.version + 1
        updatedAt := a.now }
      (⟨some u2, none, true⟩,
       { a with users := a.users.map (fun x => if x.id == userId then u2 else x) })

/-- `updateUser`: the transaction under `withLock(getUserLockKey(userId),
…, {timeout: 5000, retries: 2})`; the `try/catch` converts a lock
failure into a failed response. -/
def updateUser (userId : String) (inp : UpdateUserInput) (currentVersion : Option Nat)
    (st : Db) : DatabaseResponse UserRec × Db :=
  match withLock (E := Empty) (userLockKey userId)
      (exceptOk (userRun userId inp currentVersion)) ⟨5000, 2, 300⟩ st with
  | (.ok r, st1) => (r, st1)
  | (.fnErr e, _) => e.elim
  | (.lockFailed, st1) =>
    (⟨none, some ("Failed to acquire lock: " ++ userLockKey userId), false⟩, st1)

/-- The body of `deleteUser`: `prisma.user.update` throws when the row is
absent (the outer catch turns that into a failure); otherwise the status
is set to `deleted` (no version change) and the user's active sessions
are terminated with reason `user_deleted`. -/
def deleteUserRun (userId : String) (a : AppDb) :
    Except String (DatabaseResponse Bool) × AppDb :=
  match findUser a.users userId with
  | none => (.error "Record to update not found.", a)
  | some u =>
    let u2 := { u with status := "deleted", updatedAt := a.now }
    (.ok ⟨some true, none, true⟩,
     { a with
       users := a.users.map (fun x => if x.id == userId then u2 else x)
       sessions := terminateAllActive a.sessions userId a.now "user_deleted" })

/-- `deleteUser`: soft delete under the user lock with
`{timeout: 5000}` (retries and retryDelay at their defaults 10 / 300). -/
def deleteUser (userId : String) (st : Db) : DatabaseResponse Bool × Db :=
  match withLock (userLockKey userId) (liftAppE (deleteUserRun userId))
      ⟨5000, 10, 300⟩ st with
  | (.ok r, st1) => (r, st1)
  | (.fnErr e, st1) => (⟨none, some e, false⟩, st1)
  | (.lockFailed, st1) =>
    (⟨none, some ("Failed to acquire lock: " ++ userLockKey userId), false⟩, st1)

/-- `updateLastActive`: a bare `prisma.user.update` setting
`lastActiveAt` (no lock, no transaction; the database trigger refreshes
`updatedAt`, and `version` is not touched).  A missing row makes the
update throw, which the catch converts to a failure. -/
def updateLastActive (userId : String) (st : Db) : DatabaseResponse Bool × Db :=
  match findUser st.app.users userId with
  | none => (⟨none, some "Record to update not found.", false⟩, st)
  | some u =>
    let u2 := { u with lastActiveAt := some st.app.now, updatedAt := st.app.now }
    (⟨some true, none, true⟩,
     { st with app := { st.app with
         users := st.app.users.map (fun x => if x.id == userId then u2 else x) } })

/-! ## Concrete demonstration states for the testable scenarios -/

/-- Login input from device `d1` of user `u1`. -/
def demoInputD1 : CreateSessionInput :=
  ⟨"u1", "d1", none, none, "ios", none, none, none, none, none, none⟩

/-- Login input from device `d2` of user `u1`. -/
def demoInputD2 : CreateSessionInput :=
  ⟨"u1", "d2", none, none, "android", none, none, none, none, none, none⟩

/-- An empty database at time 0. -/
def demoDb0 : Db := ⟨[], 0, ⟨[], [], 0, 0⟩⟩

/-- The database after `getOrCreateSession(u1, d1)` on the empty state. -/
def demoDb1 : Db := (getOrCreateSession demoInputD1 demoDb0).2

/-- A terminated pre-existing session row of `u1` on device `d1`. -/
def demoSession1 : Session :=
  ⟨0, "u1", "d1", none, none, "ios", none, none, none, none, false, none, none,
   0, 0, 100, some 50, some "user_logout"⟩

/-- A database holding just that terminated row, at time 500. -/
def demoDb2 : Db := ⟨[], 0, ⟨[demoSession1], [], 1, 500⟩⟩

/-- A session row of another user that already carries the idempotency
key `K`. -/
def demoSessionK : Session :=
  ⟨0, "u2", "d1", none, none, "ios", none, none, none, none, true, none, some "K",
   0, 0, 1000000, none, none⟩

/-- A database holding that row, at time 500. -/
def demoDbK : Db := ⟨[], 0, ⟨[demoSessionK], [], 1, 500⟩⟩

/-- A first login of `u1` from device `d9` reusing the idempotency key
`K`: its create path hits the `idempotency_key` unique constraint. -/
def demoInputDup : CreateSessionInput :=
  ⟨"u1", "d9", none, none, "ios", none, none, none, none, some "K", none⟩

/-! ## Lemmas about the lock acquisition loop -/

theorem acquireLoop_clock (key owner : String) (le : Int) (r rd : Nat) :
    ∀ (fuel attempt : Nat) (s : AcqState),
      s.slept ≤ (acquireLoop key owner le r rd attempt fuel s).2.slept ∧
      ((acquireLoop key owner le r rd attempt fuel s).2.now : Int)
        = s.now + ((acquireLoop key owner le r rd attempt fuel s).2.slept : Int) - s.slept := by
  intro fuel
  induction fuel with
  | zero => intro attempt s; simp [acquireLoop]
  | succ f ih =>
    intro attempt s
    simp only [acquireLoop]
    cases h : lookupLock s.locks key with
    | none => simp
    | some rec =>
      simp only
      split
      · exact ih (attempt + 1) ⟨reapKey s.locks key s.now, s.now, s.slept⟩
      · split
        · have h2 := ih (attempt + 1)
            ⟨s.locks, s.now + (rd * (attempt + 1) : Nat), s.slept + rd * (attempt + 1)⟩
          refine ⟨le_trans (Nat.le_add_right _ _) h2.1, ?_⟩
          rw [h2.2]
          push_cast
          ring
        · simp

theorem acquireLoop_ok (key owner : String) (le : Int) (r rd : Nat) :
    ∀ (fuel attempt : Nat) (s : AcqState) (o : String) (a : AcqState),
      acquireLoop key owner le r rd attempt fuel s = (some o, a) →
      o = owner ∧ ∃ rest, a.locks = ⟨key, owner, le⟩ :: rest ∧ lookupLock rest key = none := by
  intro fuel
  induction fuel with
  | zero => intro attempt s o a h; simp [acquireLoop] at h
  | succ f ih =>
    intro attempt s o a h
    simp only [acquireLoop] at h
    cases hl : lookupLock s.locks key with
    | none =>
      rw [hl] at h
      simp only [Prod.mk.injEq, Option.some.injEq] at h
      exact ⟨h.1.symm, s.locks, by rw [← h.2], hl⟩
    | some rec =>
      rw [hl] at h
      simp only at h
      split at h
      · exact ih (attempt + 1) _ o a h
      · split at h
        · exact ih (attempt + 1) _ o a h
        · simp at h

theorem acquireLoop_slept_le (key owner : String) (le : Int) (r rd : Nat) :
    ∀ (fuel attempt : Nat) (s : AcqState),
      2 * (acquireLoop key owner le r rd attempt fuel s).2.slept
        ≤ 2 * s.slept + rd * (r * (r + 1) - attempt * (attempt + 1)) := by
  intro fuel
  induction fuel with
  | zero => intro attempt s; simp [acquireLoop]
  | succ f ih =>
    intro attempt s
    simp only [acquireLoop]
    cases h : lookupLock s.locks key with
    | none => simp
    | some rec =>
      simp only
      split
      · refine le_trans (ih (attempt + 1) _) ?_
        have hmono : attempt * (attempt + 1) ≤ (attempt + 1) * (attempt + 1 + 1) :=
          Nat.mul_le_mul (Nat.le_succ _) (Nat.le_succ _)
        have := Nat.sub_le_sub_left hmono (r * (r + 1))
        exact Nat.add_le_add_left (Nat.mul_le_mul_left rd this) _
      · split
        · rename_i hlt
          refine le_trans (ih (attempt + 1) _) ?_
          have key1 : (attempt + 1) * (attempt + 1 + 1)
              = attempt * (attempt + 1) + 2 * (attempt + 1) := by ring
          have key2 : (attempt + 1) * (attempt + 1 + 1) ≤ r * (r + 1) :=
            Nat.mul_le_mul hlt (Nat.succ_le_succ hlt)
          have inner : 2 * (attempt + 1) + (r * (r + 1) - (attempt + 1) * (attempt + 1 + 1))
              ≤ r * (r + 1) - attempt * (attempt + 1) := by omega
          calc 2 * (s.slept + rd * (attempt + 1))
                + rd * (r * (r + 1) - (attempt + 1) * (attempt + 1 + 1))
              = 2 * s.slept + rd * (2 * (attempt + 1)
                  + (r * (r + 1) - (attempt + 1) * (attempt + 1 + 1))) := by ring
            _ ≤ 2 * s.slept + rd * (r * (r + 1) - attempt * (attempt + 1)) :=
              Nat.add_le_add_left (Nat.mul_le_mul_left rd inner) _
        · simp

/-! ## Claims C7, C8, C10 (lock acquisition loop) -/

/-- C7, counterexample.  The claim says that a reap-triggered retry does
not consume a retry slot.  With `maxRetries = 0` and a single expired
record for the key, `acquireLock` deletes the expired record (the final
store is empty) yet fails, because the `continue` after the reap still
runs `attempt++` and exhausts the loop; had the reap not consumed the
slot, the immediate re-insert would have succeeded, as the second
conjunct shows by running the insert on the reaped store. -/
theorem claim_C7_counterexample :
    acquireLock "k" "me" 1000 0 300 [⟨"k", "o", 50⟩] 100 = (none, ⟨[], 100, 0⟩) ∧
    (acquireLock "k" "me" 1000 0 300 [] 100).1 = some "me" :=
  ⟨rfl, rfl⟩

/-- C7, amended.  When an insert attempt finds a record for the key and
the expired-record cleanup deletes at least one row, the loop retries
immediately — the clock and the total sleep time are unchanged — but the
retry consumes a loop iteration like any other: the fuel decreases and
the attempt counter increases, so the number of remaining insert
attempts shrinks by one. -/
theorem claim_C7_amended (key owner : String) (le : Int) (r rd attempt fuel : Nat)
    (s : AcqState) (rec : LockRecord)
    (h1 : lookupLock s.locks key = some rec)
    (h2 : 0 < (expiredForKey s.locks key s.now).length) :
    acquireLoop key owner le r rd attempt (fuel + 1) s
      = acquireLoop key owner le r rd (attempt + 1) fuel
          ⟨reapKey s.locks key s.now, s.now, s.slept⟩ := by
  simp only [acquireLoop, h1]
  rw [if_pos h2]

/-- Witness for C7's amended theorem at a concrete input: one expired
record for key `k` at time 100 with one loop iteration left. -/
theorem claim_C7_amended_witness :
    acquireLoop "k" "me" 1100 0 300 0 1 ⟨[⟨"k", "o", 50⟩], 100, 0⟩
      = acquireLoop "k" "me" 1100 0 300 1 0
          ⟨reapKey [⟨"k", "o", 50⟩] "k" 100, 100, 0⟩ :=
  claim_C7_amended "k" "me" 1100 0 300 0 0 ⟨[⟨"k", "o", 50⟩], 100, 0⟩
    ⟨"k", "o", 50⟩ rfl (by decide)

/-- C8, counterexample.  With `maxRetries = 2` and `retryDelay = 1` and a
lock that stays held and unexpired, the loop sleeps `1·1 + 1·2 = 3` ms in
total, which exceeds the claimed bound `retryDelay × maxRetries = 2`. -/
theorem claim_C8_counterexample :
    (acquireLock "k" "me" 1000 2 1 [⟨"k", "o", 1000000⟩] 0).2.slept = 3 ∧
    ¬ (acquireLock "k" "me" 1000 2 1 [⟨"k", "o", 1000000⟩] 0).2.slept ≤ 1 * 2 :=
  ⟨rfl, by decide⟩

/-- C8, amended.  The wait before retry number `n = attempt + 1` is
`retryDelay * n` (second conjunct), so the total time slept over a whole
`acquireLock` call is at most
`retryDelay * maxRetries * (maxRetries + 1) / 2` — stated doubled to
avoid division (first conjunct) — not `retryDelay * maxRetries`; after
the last attempt finds the lock still held and unexpired, the call gives
up and returns `none` (the source's `null`, which `withLock` turns into
the lock-acquisition failure; third conjunct). -/
theorem claim_C8_amended (key owner : String) (timeout retries retryDelay : Nat)
    (locks : LockStore) (now : Int) :
    2 * (acquireLock key owner timeout retries retryDelay locks now).2.slept
        ≤ retryDelay * (retries * (retries + 1)) ∧
    (∀ (le : Int) (attempt fuel : Nat) (s : AcqState) (rec : LockRecord),
      lookupLock s.locks key = some rec →
      (expiredForKey s.locks key s.now).length = 0 →
      attempt < retries →
      acquireLoop key owner le retries retryDelay attempt (fuel + 1) s
        = acquireLoop key owner le retries retryDelay (attempt + 1) fuel
            ⟨s.locks, s.now + (retryDelay * (attempt + 1) : Nat),
             s.slept + retryDelay * (attempt + 1)⟩) ∧
    (∀ (le : Int) (attempt fuel : Nat) (s : AcqState) (rec : LockRecord),
      lookupLock s.locks key = some rec →
      (expiredForKey s.locks key s.now).length = 0 →
      ¬ attempt < retries →
      acquireLoop key owner le retries retryDelay attempt (fuel + 1) s = (none, s)) := by
  refine ⟨?_, ?_, ?_⟩
  · have h := acquireLoop_slept_le key owner (now + timeout) retries retryDelay
      (retries + 1) 0 ⟨locks, now, 0⟩
    simpa [acquireLock] using h
  · intro le attempt fuel s rec h1 h2 h3
    simp only [acquireLoop, h1]
    rw [if_neg (by omega), if_pos h3]
  · intro le attempt fuel s rec h1 h2 h3
    simp only [acquireLoop, h1]
    rw [if_neg (by omega), if_neg h3]

/-- Witness for C8's amended theorem: the bound at the counterexample
input (attained there: 2·3 = 1·(2·3)), one concrete sleep step, and the
concrete give-up step. -/
theorem claim_C8_amended_witness :
    2 * (acquireLock "k" "me" 1000 2 1 [⟨"k", "o", 1000000⟩] 0).2.slept
        ≤ 1 * (2 * (2 + 1)) ∧
    acquireLoop "k" "me" 1000 2 1 0 3 ⟨[⟨"k", "o", 1000000⟩], 0, 0⟩
      = acquireLoop "k" "me" 1000 2 1 1 2 ⟨[⟨"k", "o", 1000000⟩], 0 + (1 * (0 + 1) : Nat), 0 + 1 * (0 + 1)⟩ ∧
    acquireLoop "k" "me" 1000 2 1 2 1 ⟨[⟨"k", "o", 1000000⟩], 3, 3⟩
      = (none, ⟨[⟨"k", "o", 1000000⟩], 3, 3⟩) := by
  refine ⟨(claim_C8_amended "k" "me" 1000 2 1 [⟨"k", "o", 1000000⟩] 0).1, ?_, ?_⟩
  · exact (claim_C8_amended "k" "me" 1000 2 1 [⟨"k", "o", 1000000⟩] 0).2.1
      1000 0 2 ⟨[⟨"k", "o", 1000000⟩], 0, 0⟩ ⟨"k", "o", 1000000⟩ rfl (by decide) (by decide)
  · exact (claim_C8_amended "k" "me" 1000 2 1 [⟨"k", "o", 1000000⟩] 0).2.2
      1000 2 0 ⟨[⟨"k", "o", 1000000⟩], 3, 3⟩ ⟨"k", "o", 1000000⟩ rfl (by decide) (by decide)

/-- C10, confirmed.  On a successful `acquireLock`, the record in the
store carries `expiresAt = callStart + timeout` — the timestamp computed
once, before the first insert attempt — the final clock equals the call
start plus the total time slept, and therefore whenever the loop slept
at all before acquiring, the lock expires strictly less than `timeout`
after the moment it was actually acquired. -/
theorem claim_C10 (key owner : String) (timeout retries retryDelay : Nat)
    (locks : LockStore) (now : Int) (o : String) (a : AcqState)
    (h : acquireLock key owner timeout retries retryDelay locks now = (some o, a)) :
    ∃ rest, a.locks = ⟨key, owner, now + timeout⟩ :: rest ∧
      (a.now : Int) = now + (a.slept : Int) ∧
      (0 < a.slept → now + (timeout : Int) < a.now + (timeout : Int)) := by
  have hshape := acquireLoop_ok key owner (now + timeout) retries retryDelay
    (retries + 1) 0 ⟨locks, now, 0⟩ o a h
  have hclock := acquireLoop_clock key owner (now + timeout) retries retryDelay
    (retries + 1) 0 ⟨locks, now, 0⟩
  rw [show acquireLoop key owner (now + timeout) retries retryDelay 0 (retries + 1)
        ⟨locks, now, 0⟩ = (some o, a) from h] at hclock
  obtain ⟨rest, hrest, hnone⟩ := hshape.2
  refine ⟨rest, hrest, ?_, ?_⟩
  · have := hclock.2
    simpa using this
  · intro hpos
    have := hclock.2
    simp only [Nat.cast_zero, sub_zero] at this
    rw [this]
    have : (0 : Int) < (a.slept : Int) := by exact_mod_cast hpos
    omega

/-- Witness for C10: the lock for `k` is held until time 50; starting at
time 0 with `retryDelay = 100` the caller sleeps 100 ms, reaps the
expired record, and inserts on the third iteration, so it acquires at
time 100 a lock that already expires at `0 + 1000`. -/
theorem claim_C10_witness :
    ∃ rest, (⟨[⟨"k", "me", 1000⟩], 100, 100⟩ : AcqState).locks
        = ⟨"k", "me", (0 : Int) + (1000 : Nat)⟩ :: rest ∧
      ((⟨[⟨"k", "me", 1000⟩], 100, 100⟩ : AcqState).now : Int)
        = 0 + ((⟨[⟨"k", "me", 1000⟩], 100, 100⟩ : AcqState).slept : Int) ∧
      (0 < (⟨[⟨"k", "me", 1000⟩], 100, 100⟩ : AcqState).slept →
        (0 : Int) + ((1000 : Nat) : Int)
          < (⟨[⟨"k", "me", 1000⟩], 100, 100⟩ : AcqState).now + ((1000 : Nat) : Int)) :=
  claim_C10 "k" "me" 1000 5 100 [⟨"k", "o", 50⟩] 0 "me"
    ⟨[⟨"k", "me", 1000⟩], 100, 100⟩ rfl

/-! ## Lemmas about withLock -/

theorem lookupLock_none_iff (ls : LockStore) (key : String) :
    lookupLock ls key = none ↔ ∀ r ∈ ls, r.lockKey ≠ key := by
  simp [lookupLock, List.find?_eq_none]

theorem removeLock_cons_self (rest : LockStore) (key owner : String) (exp : Int)
    (h : lookupLock rest key = none) :
    removeLock (⟨key, owner, exp⟩ :: rest) key owner = rest := by
  have hall := (lookupLock_none_iff rest key).mp h
  simp only [removeLock, List.filter_cons]
  have hhead : ((⟨key, owner, exp⟩ : LockRecord).lockKey == key
      && (⟨key, owner, exp⟩ : LockRecord).lockOwner == owner) = true := by simp
  rw [if_neg (by simp [hhead])]
  apply List.filter_eq_self.mpr
  intro r hr
  have : r.lockKey ≠ key := hall r hr
  simp [this]

theorem withLockAcq_lookup_none (key : String) (opts : LockOptions) (st : Db)
    (h : lookupLock st.locks key = none) :
    withLockAcq key opts st
      = (some ("owner-" ++ toString st.ownerSeed),
         { locks := ⟨key, "owner-" ++ toString st.ownerSeed,
                     st.app.now + (opts.timeout : Int)⟩ :: st.locks,
           ownerSeed := st.ownerSeed + 1,
           app := st.app }) := by
  simp [withLockAcq, acquireLock, acquireLoop, h]

theorem withLock_some {E T : Type} (key : String) (fn : Db → Except E T × Db)
    (opts : LockOptions) (st : Db) (o : String) (st1 : Db)
    (hacq : withLockAcq key opts st = (some o, st1)) :
    withLock key fn opts st
      = ((match (fn st1).1 with
          | Except.ok t => WLResult.ok t
          | Except.error e => WLResult.fnErr e),
         { (fn st1).2 with locks := removeLock ((fn st1).2).locks key o }) := by
  cases hf : fn st1 with
  | mk r s2 =>
    cases r with
    | ok t => simp [withLock, hacq, hf]
    | error e => simp [withLock, hacq, hf]

theorem withLock_fail {E T : Type} (key : String) (fn : Db → Except E T × Db)
    (opts : LockOptions) (st : Db) (st1 : Db)
    (hacq : withLockAcq key opts st = (none, st1)) :
    withLock key fn opts st = (.lockFailed, st1) := by
  simp [withLock, hacq]

theorem withLock_lookup_none {E T : Type} (key : String) (f : AppDb → T × AppDb)
    (opts : LockOptions) (st : Db) (h : lookupLock st.locks key = none) :
    withLock (E := E) key (exceptOk f) opts st
      = (.ok (f st.app).1, ⟨st.locks, st.ownerSeed + 1, (f st.app).2⟩) := by
  rw [withLock_some key (exceptOk f) opts st ("owner-" ++ toString st.ownerSeed)
    ⟨⟨key, "owner-" ++ toString st.ownerSeed, st.app.now + (opts.timeout : Int)⟩ :: st.locks,
      st.ownerSeed + 1, st.app⟩ (withLockAcq_lookup_none key opts st h)]
  simp only [exceptOk]
  rw [removeLock_cons_self st.locks key _ _ h]

/-! ## Claim C5 (withLock guaranteed release) -/

/-- C5, confirmed.  For a body `fn` that does not touch the lock table
(the transaction bodies of this code base): when acquisition succeeds,
the final state carries no lock record for the key — the acquired record
was deleted by the `finally` release — both when `fn` returns a value and
when it throws, the final state is exactly `fn`'s state with the release
applied, and `withLock` returns `fn`'s value or propagates its exception;
when acquisition fails, `withLock` throws the lock-failure error, the
application tables are untouched, and `fn` is never executed (the outcome
is the same for every body `g`). -/
theorem claim_C5 {E T : Type} (key : String) (fn : Db → Except E T × Db)
    (opts : LockOptions) (st : Db)
    (hfn : ∀ s, ((fn s).2).locks = s.locks) :
    (∀ o st1, withLockAcq key opts st = (some o, st1) →
      lookupLock ((withLock key fn opts st).2).locks key = none ∧
      (withLock key fn opts st).2
        = { (fn st1).2 with locks := removeLock ((fn st1).2).locks key o } ∧
      (∀ t, (fn st1).1 = .ok t → (withLock key fn opts st).1 = WLResult.ok t) ∧
      (∀ e, (fn st1).1 = .error e → (withLock key fn opts st).1 = WLResult.fnErr e)) ∧
    (∀ st1, withLockAcq key opts st = (none, st1) →
      (withLock key fn opts st).1 = WLResult.lockFailed ∧
      ((withLock key fn opts st).2).app.sessions = st.app.sessions ∧
      ((withLock key fn opts st).2).app.users = st.app.users ∧
      (∀ g : Db → Except E T × Db, withLock key g opts st = withLock key fn opts st)) := by
  constructor
  · intro o st1 hacq
    have hacq' := hacq
    simp only [withLockAcq] at hacq'
    rw [Prod.mk.injEq] at hacq'
    obtain ⟨h1, h2⟩ := hacq'
    have hrun : acquireLock key ("owner-" ++ toString st.ownerSeed) opts.timeout opts.retries
        opts.retryDelay st.locks st.app.now
        = (some o, (acquireLock key ("owner-" ++ toString st.ownerSeed) opts.timeout opts.retries
            opts.retryDelay st.locks st.app.now).2) := by
      rw [← h1]
    have hshape := acquireLoop_ok key ("owner-" ++ toString st.ownerSeed) (st.app.now + opts.timeout)
      opts.retries opts.retryDelay (opts.retries + 1) 0
      ⟨st.locks, st.app.now, 0⟩ o _ hrun
    obtain ⟨ho, rest, hrest, hnone⟩ := hshape
    have hst1locks : st1.locks
        = ⟨key, "owner-" ++ toString st.ownerSeed, st.app.now + opts.timeout⟩ :: rest := by
      rw [← h2]; exact hrest
    have hrel : removeLock ((fn st1).2).locks key o = rest := by
      rw [hfn st1, hst1locks, ho]
      exact removeLock_cons_self rest key _ _ hnone
    rw [withLock_some key fn opts st o st1 hacq]
    refine ⟨by simpa [hrel] using hnone, by rw [hrel], ?_, ?_⟩
    · intro t ht; rw [ht]
    · intro e he; rw [he]
  · intro st1 hacq
    have hacq' := hacq
    simp only [withLockAcq] at hacq'
    rw [Prod.mk.injEq] at hacq'
    obtain ⟨h1, h2⟩ := hacq'
    rw [withLock_fail key fn opts st st1 hacq]
    refine ⟨rfl, ?_, ?_, ?_⟩
    · rw [← h2]
    · rw [← h2]
    · intro g
      rw [withLock_fail key g opts st st1 hacq]

/-- Witness for C5: a body returning 7 under an uncontended lock on key
`k`; the lock table ends empty for the key and the value is returned. -/
theorem claim_C5_witness :
    lookupLock ((withLock (E := String) "k" (fun s => (Except.ok 7, s)) ⟨1000, 1, 100⟩
        ⟨[], 0, ⟨[], [], 0, 0⟩⟩).2).locks "k" = none ∧
    (withLock (E := String) "k" (fun s => (Except.ok 7, s)) ⟨1000, 1, 100⟩
        ⟨[], 0, ⟨[], [], 0, 0⟩⟩).1 = WLResult.ok 7 := by
  have h := (claim_C5 (E := String) "k" (fun s => (Except.ok 7, s)) ⟨1000, 1, 100⟩
      ⟨[], 0, ⟨[], [], 0, 0⟩⟩ (fun s => rfl)).1 "owner-0"
      ⟨[⟨"k", "owner-0", 1000⟩], 1, ⟨[], [], 0, 0⟩⟩ rfl
  exact ⟨h.1, h.2.2.1 7 rfl⟩

/-! ## Evaluation lemmas for the services -/

theorem withLock_liftAppE_lookup_none {E T : Type} (key : String)
    (f : AppDb → Except E T × AppDb) (opts : LockOptions) (st : Db)
    (h : lookupLock st.locks key = none) :
    withLock key (liftAppE f) opts st
      = ((match (f st.app).1 with
          | Except.ok t => WLResult.ok t
          | Except.error e => WLResult.fnErr e),
         ⟨st.locks, st.ownerSeed + 1, (f st.app).2⟩) := by
  rw [withLock_some key (liftAppE f) ⟨opts.timeout, opts.retries, opts.retryDelay⟩ st
    ("owner-" ++ toString st.ownerSeed)
    ⟨⟨key, "owner-" ++ toString st.ownerSeed, st.app.now + (opts.timeout : Int)⟩ :: st.locks,
      st.ownerSeed + 1, st.app⟩ (withLockAcq_lookup_none key _ st h)]
  simp only [liftAppE]
  rw [removeLock_cons_self st.locks key _ _ h]

theorem getOrCreateSession_acq_some (inp : CreateSessionInput) (st : Db) (o : String) (st1 : Db)
    (hacq : withLockAcq (sessionLockKey inp.userId inp.deviceId) ⟨5000, 3, 300⟩ st
      = (some o, st1)) :
    getOrCreateSession inp st
      = ((match (sessionRun inp st1.app).1 with
          | Except.ok r => r
          | Except.error e => ⟨none, some e, false⟩),
         ⟨removeLock st1.locks (sessionLockKey inp.userId inp.deviceId) o,
          st1.ownerSeed, (sessionRun inp st1.app).2⟩) := by
  have hw := withLock_some (sessionLockKey inp.userId inp.deviceId)
    (liftAppE (sessionRun inp)) ⟨5000, 3, 300⟩ st o st1 hacq
  simp only [liftAppE] at hw
  cases hr : (sessionRun inp st1.app).1 with
  | ok r => simp [getOrCreateSession, hw, hr]
  | error e => simp [getOrCreateSession, hw, hr]

theorem getOrCreateSession_acq_none (inp : CreateSessionInput) (st : Db) (st1 : Db)
    (hacq : withLockAcq (sessionLockKey inp.userId inp.deviceId) ⟨5000, 3, 300⟩ st
      = (none, st1)) :
    getOrCreateSession inp st
      = (⟨none, some ("Failed to acquire lock: " ++ sessionLockKey inp.userId inp.deviceId),
          false⟩, st1) := by
  have hw := withLock_fail (sessionLockKey inp.userId inp.deviceId)
    (liftAppE (sessionRun inp)) ⟨5000, 3, 300⟩ st st1 hacq
  simp [getOrCreateSession, hw]

theorem getOrCreateSession_lookup_none (inp : CreateSessionInput) (st : Db)
    (h : lookupLock st.locks (sessionLockKey inp.userId inp.deviceId) = none) :
    getOrCreateSession inp st
      = ((match (sessionRun inp st.app).1 with
          | Except.ok r => r
          | Except.error e => ⟨none, some e, false⟩),
         ⟨st.locks, st.ownerSeed + 1, (sessionRun inp st.app).2⟩) := by
  have hw := withLock_liftAppE_lookup_none (sessionLockKey inp.userId inp.deviceId)
    (sessionRun inp) ⟨5000, 3, 300⟩ st h
  cases hr : (sessionRun inp st.app).1 with
  | ok r => simp [getOrCreateSession, hw, hr]
  | error e => simp [getOrCreateSession, hw, hr]

theorem getOrCreateSession_run_ok (inp : CreateSessionInput) (st : Db)
    (r : DatabaseResponse Session) (a2 : AppDb)
    (hlock : lookupLock st.locks (sessionLockKey inp.userId inp.deviceId) = none)
    (h : sessionRun inp st.app = (Except.ok r, a2)) :
    getOrCreateSession inp st = (r, ⟨st.locks, st.ownerSeed + 1, a2⟩) := by
  rw [getOrCreateSession_lookup_none inp st hlock, h]

theorem updateUser_lookup_none (uid : String) (inp : UpdateUserInput) (cv : Option Nat)
    (st : Db) (h : lookupLock st.locks (userLockKey uid) = none) :
    updateUser uid inp cv st
      = ((userRun uid inp cv st.app).1,
         ⟨st.locks, st.ownerSeed + 1, (userRun uid inp cv st.app).2⟩) := by
  have hw := withLock_lookup_none (E := Empty) (userLockKey uid)
    (userRun uid inp cv) ⟨5000, 2, 300⟩ st h
  simp [updateUser, hw]

theorem sessionRun_cases (inp : CreateSessionInput) (a : AppDb) :
    (∃ s, (sessionRun inp a).1 = Except.ok ⟨some s, none, true⟩) ∨
    sessionRun inp a = (Except.error p2002IdempotencyMsg, a) := by
  cases hE : findLatestSession a.sessions inp.userId inp.deviceId with
  | some e =>
    exact Or.inl ⟨reactivateSession inp a.now (a.now + (expiryDays inp : Int) * dayMs) e,
      by simp [sessionRun, hE]⟩
  | none =>
    by_cases hd : dupIdemKey a.sessions inp
    · exact Or.inr (by simp [sessionRun, hE, hd])
    · exact Or.inl ⟨newSessionRow inp a.nextId a.now (a.now + (expiryDays inp : Int) * dayMs),
        by simp [sessionRun, hE, hd]⟩

theorem getOrCreateSession_success_inv (inp : CreateSessionInput) (st : Db)
    (hs : (getOrCreateSession inp st).1.success = true) :
    ∃ (st1 : Db) (r : DatabaseResponse Session),
      st1.app.sessions = st.app.sessions ∧
      sessionRun inp st1.app = (Except.ok r, ((getOrCreateSession inp st).2).app) ∧
      (getOrCreateSession inp st).1 = r := by
  cases hacq : withLockAcq (sessionLockKey inp.userId inp.deviceId) ⟨5000, 3, 300⟩ st with
  | mk res st1 =>
    cases res with
    | none =>
      rw [getOrCreateSession_acq_none inp st st1 hacq] at hs
      simp at hs
    | some o =>
      have heval := getOrCreateSession_acq_some inp st o st1 hacq
      have hsess : st1.app.sessions = st.app.sessions := by
        have hacq' := hacq
        simp only [withLockAcq] at hacq'
        rw [Prod.mk.injEq] at hacq'
        rw [← hacq'.2]
      cases hr : (sessionRun inp st1.app).1 with
      | error e =>
        rw [heval] at hs
        simp only [hr] at hs
        simp at hs
      | ok r =>
        refine ⟨st1, r, hsess, ?_, ?_⟩
        · rw [heval]
          show sessionRun inp st1.app = (Except.ok r, (sessionRun inp st1.app).2)
          rw [← hr]
        · rw [heval]
          simp [hr]

theorem findUser_some_id (us : List UserRec) (uid : String) (u : UserRec)
    (h : findUser us uid = some u) : u.id = uid := by
  have := List.find?_some h
  simpa using this

theorem findUser_map_update (us : List UserRec) (uid : String) (u2 : UserRec)
    (hid : u2.id = uid) (h : (findUser us uid).isSome) :
    findUser (us.map (fun x => if x.id == uid then u2 else x)) uid = some u2 := by
  induction us with
  | nil => simp [findUser] at h
  | cons x xs ih =>
    by_cases hx : x.id = uid
    · simp [findUser, List.find?_cons, hx, hid]
    · have hx' : (x.id == uid) = false := by simp [hx]
      simp only [findUser, List.map_cons, List.find?_cons, hx'] at h ⊢
      rw [if_neg (by simp [hx])]
      simp only [hx']
      exact ih h

/-! ## Claim C6 (getOrCreateSession result shape) -/

/-- C6, counterexample.  The claim says `getOrCreateSession` either
returns a session or raises `LockAcquisitionFailed`, and never returns a
duplicate error.  Both parts fail.  First conjunct: with the
per-(user,device) lock held by another owner and unexpired, the call
neither returns a session nor raises — the `try/catch` swallows the
lock-acquisition exception and the function returns normally with a
failed response carrying the lock error message.  Second conjunct: a
first login whose idempotency key already exists on another row makes
`tx.session.create` violate the `idempotency_key` unique constraint;
the transaction rolls back and the call returns a typed failure carrying
the duplicate-key (unique-constraint) message — a "duplicate" error. -/
theorem claim_C6_counterexample :
    ((getOrCreateSession demoInputD1
        ⟨[⟨"session:u1:d1", "other", 999999999⟩], 0, ⟨[], [], 0, 0⟩⟩).1.success = false ∧
      (getOrCreateSession demoInputD1
        ⟨[⟨"session:u1:d1", "other", 999999999⟩], 0, ⟨[], [], 0, 0⟩⟩).1.data = none ∧
      (getOrCreateSession demoInputD1
        ⟨[⟨"session:u1:d1", "other", 999999999⟩], 0, ⟨[], [], 0, 0⟩⟩).1.error
        = some "Failed to acquire lock: session:u1:d1") ∧
    ((getOrCreateSession demoInputDup demoDbK).1.success = false ∧
      (getOrCreateSession demoInputDup demoDbK).1.data = none ∧
      (getOrCreateSession demoInputDup demoDbK).1.error = some p2002IdempotencyMsg) :=
  ⟨⟨rfl, rfl, rfl⟩, ⟨rfl, rfl, rfl⟩⟩

/-- C6, amended.  For every input and state, `getOrCreateSession` returns
normally with a typed result — it never lets an exception escape: either
a successful response carrying a session, or a failed response whose
error is the lock-acquisition message
`Failed to acquire lock: session:<userId>:<deviceId>`, or a failed
response carrying the `idempotency_key` unique-constraint (duplicate
key) message when a first login reuses an idempotency key stored on
another row. -/
theorem claim_C6_amended (inp : CreateSessionInput) (st : Db) :
    ((getOrCreateSession inp st).1.success = true ∧
      ∃ s, (getOrCreateSession inp st).1.data = some s ∧
        (getOrCreateSession inp st).1.error = none) ∨
    ((getOrCreateSession inp st).1.success = false ∧
      (getOrCreateSession inp st).1.data = none ∧
      (getOrCreateSession inp st).1.error
        = some ("Failed to acquire lock: " ++ sessionLockKey inp.userId inp.deviceId)) ∨
    ((getOrCreateSession inp st).1.success = false ∧
      (getOrCreateSession inp st).1.data = none ∧
      (getOrCreateSession inp st).1.error = some p2002IdempotencyMsg) := by
  cases hacq : withLockAcq (sessionLockKey inp.userId inp.deviceId) ⟨5000, 3, 300⟩ st with
  | mk res st1 =>
    cases res with
    | none =>
      rw [getOrCreateSession_acq_none inp st st1 hacq]
      exact Or.inr (Or.inl ⟨rfl, rfl, rfl⟩)
    | some o =>
      rw [getOrCreateSession_acq_some inp st o st1 hacq]
      rcases sessionRun_cases inp st1.app with ⟨s, hr⟩ | hr
      · rw [hr]
        exact Or.inl ⟨rfl, s, rfl, rfl⟩
      · have hr1 : (sessionRun inp st1.app).1 = Except.error p2002IdempotencyMsg := by
          rw [hr]
        rw [hr1]
        exact Or.inr (Or.inr ⟨rfl, rfl, rfl⟩)

/-! ## Claims C3, C4 (optimistic-concurrency updateUser) -/

/-- C3, confirmed.  When the user lock is free, the stored row exists and
the caller supplies a `currentVersion` different from the stored
`version`, `updateUser` returns the conflict error "User has been
modified by another request. Please retry." and performs no write: the
users table, the sessions table, in fact the whole application state is
returned unchanged. -/
theorem claim_C3 (uid : String) (inp : UpdateUserInput) (v : Nat) (st : Db) (u : UserRec)
    (hlock : lookupLock st.locks (userLockKey uid) = none)
    (hu : findUser st.app.users uid = some u)
    (hv : u.version ≠ v) :
    (updateUser uid inp (some v) st).1.success = false ∧
    (updateUser uid inp (some v) st).1.data = none ∧
    (updateUser uid inp (some v) st).1.error
      = some "User has been modified by another request. Please retry." ∧
    ((updateUser uid inp (some v) st).2).app = st.app := by
  rw [updateUser_lookup_none uid inp (some v) st hlock]
  have hm : versionMismatch (some v) u.version = true := by
    simp [versionMismatch, hv]
  simp [userRun, hu, hm]

/-- Witness for C3 at the spec's concrete scenario: an entity stored at
version 2, a caller presenting expected version 1. -/
theorem claim_C3_witness :
    (updateUser "u1" ⟨none, none, some "Bob", none, none, none, none⟩ (some 1)
        ⟨[], 0, ⟨[], [⟨"u1", "p1", none, none, none, none, none, none, "active", 0, 0, none,
          2⟩], 0, 5⟩⟩).1.success = false ∧
    (updateUser "u1" ⟨none, none, some "Bob", none, none, none, none⟩ (some 1)
        ⟨[], 0, ⟨[], [⟨"u1", "p1", none, none, none, none, none, none, "active", 0, 0, none,
          2⟩], 0, 5⟩⟩).1.data = none ∧
    (updateUser "u1" ⟨none, none, some "Bob", none, none, none, none⟩ (some 1)
        ⟨[], 0, ⟨[], [⟨"u1", "p1", none, none, none, none, none, none, "active", 0, 0, none,
          2⟩], 0, 5⟩⟩).1.error
      = some "User has been modified by another request. Please retry." ∧
    ((updateUser "u1" ⟨none, none, some "Bob", none, none, none, none⟩ (some 1)
        ⟨[], 0, ⟨[], [⟨"u1", "p1", none, none, none, none, none, none, "active", 0, 0, none,
          2⟩], 0, 5⟩⟩).2).app
      = ⟨[], [⟨"u1", "p1", none, none, none, none, none, none, "active", 0, 0, none, 2⟩], 0, 5⟩ :=
  claim_C3 "u1" ⟨none, none, some "Bob", none, none, none, none⟩ 1
    ⟨[], 0, ⟨[], [⟨"u1", "p1", none, none, none, none, none, none, "active", 0, 0, none, 2⟩],
      0, 5⟩⟩
    ⟨"u1", "p1", none, none, none, none, none, none, "active", 0, 0, none, 2⟩
    rfl rfl (by decide)

/-- Shared fact: a successful `userRun` stores and returns the patched
row — every supplied field of the input replaces the stored one and
every absent field is kept — at `version + 1` with `updatedAt = now`. -/
theorem userRun_success_version (uid : String) (inp : UpdateUserInput) (cv : Option Nat)
    (a : AppDb) (u : UserRec) (hu : findUser a.users uid = some u)
    (hs : (userRun uid inp cv a).1.success = true) :
    ∃ u2, (userRun uid inp cv a).1.data = some u2 ∧
      findUser ((userRun uid inp cv a).2).users uid = some u2 ∧
      u2.version = u.version + 1 ∧ u2.updatedAt = a.now ∧
      u2.email = patchField inp.email u.email ∧
      u2.phone = patchField inp.phone u.phone ∧
      u2.displayName = patchField inp.displayName u.displayName ∧
      u2.profilePictureUrl = patchField inp.profilePictureUrl u.profilePictureUrl ∧
      u2.walletAddress = patchField inp.walletAddress u.walletAddress ∧
      u2.status = inp.status.getD u.status ∧
      u2.lastActiveAt = patchField inp.lastActiveAt u.lastActiveAt := by
  by_cases hm : versionMismatch cv u.version
  · simp [userRun, hu, hm] at hs
  · have hm' : versionMismatch cv u.version = false := by simpa using hm
    by_cases hw : walletCollision a.users uid inp u
    · simp [userRun, hu, hm', hw] at hs
    · have hw' : walletCollision a.users uid inp u = false := by simpa using hw
      have hid : u.id = uid := findUser_some_id a.users uid u hu
      refine ⟨{ applyUserPatch inp u with
          walletRegisteredAt :=
            if truthy inp.walletAddress && u.walletAddress == none
            then some a.now else u.walletRegisteredAt
          version := u.version + 1
          updatedAt := a.now }, ?_, ?_, ?_, ?_, ?_, ?_, ?_, ?_, ?_, ?_, ?_⟩
      · simp [userRun, hu, hm', hw']
      · simp only [userRun, hu, hm', hw', Bool.false_eq_true, if_false]
        exact findUser_map_update a.users uid _
          (by simp [applyUserPatch, hid]) (by rw [hu]; rfl)
      · rfl
      · rfl
      · rfl
      · rfl
      · rfl
      · rfl
      · rfl
      · show (applyUserPatch inp u).status = inp.status.getD u.status
        simp only [applyUserPatch]
        cases inp.status <;> simp [patchField]
      · rfl

/-- C4, confirmed.  When the user lock is free, the stored row exists and
the version check passes (`currentVersion` omitted or equal to the
stored version), a successful `updateUser` applies the patch — every
supplied field of the input replaces the stored one and every absent
field is kept, with `status` defaulting to the stored status — and
returns and stores the row at exactly `storedVersion + 1` with
`updatedAt` set to the current time. -/
theorem claim_C4 (uid : String) (inp : UpdateUserInput) (cv : Option Nat) (st : Db)
    (u : UserRec)
    (hlock : lookupLock st.locks (userLockKey uid) = none)
    (hu : findUser st.app.users uid = some u)
    (hv : cv = none ∨ cv = some u.version)
    (hs : (updateUser uid inp cv st).1.success = true) :
    ∃ u2, (updateUser uid inp cv st).1.data = some u2 ∧
      findUser ((updateUser uid inp cv st).2).app.users uid = some u2 ∧
      u2.version = u.version + 1 ∧ u2.updatedAt = st.app.now ∧
      u2.email = patchField inp.email u.email ∧
      u2.phone = patchField inp.phone u.phone ∧
      u2.displayName = patchField inp.displayName u.displayName ∧
      u2.profilePictureUrl = patchField inp.profilePictureUrl u.profilePictureUrl ∧
      u2.walletAddress = patchField inp.walletAddress u.walletAddress ∧
      u2.status = inp.status.getD u.status ∧
      u2.lastActiveAt = patchField inp.lastActiveAt u.lastActiveAt := by
  rw [updateUser_lookup_none uid inp cv st hlock] at hs ⊢
  exact userRun_success_version uid inp cv st.app u hu hs

/-- Witness for C4 at the spec's concrete scenario: a row at version 0
updated with expected version 0 succeeds, the supplied display name is
applied and the unsupplied fields kept, and the row is then at version 1
(with `updatedAt` the call time 5). -/
theorem claim_C4_witness :
    ∃ u2, (updateUser "u1" ⟨none, none, some "Bob", none, none, none, none⟩ (some 0)
        ⟨[], 0, ⟨[], [⟨"u1", "p1", none, none, none, none, none, none, "active", 0, 0, none,
          0⟩], 0, 5⟩⟩).1.data = some u2 ∧
      findUser ((updateUser "u1" ⟨none, none, some "Bob", none, none, none, none⟩ (some 0)
        ⟨[], 0, ⟨[], [⟨"u1", "p1", none, none, none, none, none, none, "active", 0, 0, none,
          0⟩], 0, 5⟩⟩).2).app.users "u1" = some u2 ∧
      u2.version = 0 + 1 ∧ u2.updatedAt = 5 ∧
      u2.email = patchField (none : Option String) none ∧
      u2.phone = patchField (none : Option String) none ∧
      u2.displayName = patchField (some "Bob") none ∧
      u2.profilePictureUrl = patchField (none : Option String) none ∧
      u2.walletAddress = patchField (none : Option String) none ∧
      u2.status = (none : Option String).getD "active" ∧
      u2.lastActiveAt = patchField (none : Option Int) none :=
  claim_C4 "u1" ⟨none, none, some "Bob", none, none, none, none⟩ (some 0)
    ⟨[], 0, ⟨[], [⟨"u1", "p1", none, none, none, none, none, none, "active", 0, 0, none, 0⟩],
      0, 5⟩⟩
    ⟨"u1", "p1", none, none, none, none, none, none, "active", 0, 0, none, 0⟩
    rfl rfl (Or.inr rfl) rfl

/-! ## Claim C9 (version counter on every successful user write) -/

/-- C9, counterexample.  `updateLastActive` successfully writes the user
row (it sets `lastActiveAt`) yet leaves `version` unchanged at 0, not
`0 + 1` as the claim requires of every successful mutation. -/
theorem claim_C9_counterexample :
    (updateLastActive "u1"
        ⟨[], 0, ⟨[], [⟨"u1", "p1", none, none, none, none, none, none, "active", 0, 0, none,
          0⟩], 0, 5⟩⟩).1.success = true ∧
    ((updateLastActive "u1"
        ⟨[], 0, ⟨[], [⟨"u1", "p1", none, none, none, none, none, none, "active", 0, 0, none,
          0⟩], 0, 5⟩⟩).2).app.users.map UserRec.version = [0] :=
  ⟨rfl, rfl⟩

/-- C9, amended.  Only `updateUser` increments the version counter, and
there by exactly 1 per successful update; `deleteUser` (the soft delete)
and `updateLastActive` successfully write the user row — new `status`
and `updatedAt`, respectively new `lastActiveAt` — while leaving
`version` unchanged. -/
theorem claim_C9_amended :
    (∀ (uid : String) (inp : UpdateUserInput) (cv : Option Nat) (st : Db) (u : UserRec),
      lookupLock st.locks (userLockKey uid) = none →
      findUser st.app.users uid = some u →
      (updateUser uid inp cv st).1.success = true →
      ∃ u2, (updateUser uid inp cv st).1.data = some u2 ∧
        findUser ((updateUser uid inp cv st).2).app.users uid = some u2 ∧
        u2.version = u.version + 1) ∧
    (∀ (uid : String) (st : Db) (u : UserRec),
      lookupLock st.locks (userLockKey uid) = none →
      findUser st.app.users uid = some u →
      (deleteUser uid st).1.success = true ∧
      ∃ u2, findUser ((deleteUser uid st).2).app.users uid = some u2 ∧
        u2.version = u.version ∧ u2.status = "deleted" ∧ u2.updatedAt = st.app.now) ∧
    (∀ (uid : String) (st : Db) (u : UserRec),
      findUser st.app.users uid = some u →
      (updateLastActive uid st).1.success = true ∧
      ∃ u2, findUser ((updateLastActive uid st).2).app.users uid = some u2 ∧
        u2.version = u.version ∧ u2.lastActiveAt = some st.app.now) := by
  refine ⟨?_, ?_, ?_⟩
  · intro uid inp cv st u hlock hu hs
    rw [updateUser_lookup_none uid inp cv st hlock] at hs ⊢
    obtain ⟨u2, h1, h2, h3, _⟩ := userRun_success_version uid inp cv st.app u hu hs
    exact ⟨u2, h1, h2, h3⟩
  · intro uid st u hlock hu
    have hid : u.id = uid := findUser_some_id st.app.users uid u hu
    have hw := withLock_liftAppE_lookup_none (userLockKey uid) (deleteUserRun uid)
      ⟨5000, 10, 300⟩ st hlock
    have hrun : deleteUserRun uid st.app
        = (.ok ⟨some true, none, true⟩,
           { st.app with
             users := st.app.users.map
               (fun x => if x.id == uid then { u with status := "deleted", updatedAt := st.app.now } else x)
             sessions := terminateAllActive st.app.sessions uid st.app.now "user_deleted" }) := by
      simp [deleteUserRun, hu]
    rw [hrun] at hw
    have hdel : deleteUser uid st
        = (⟨some true, none, true⟩,
           ⟨st.locks, st.ownerSeed + 1,
            { st.app with
              users := st.app.users.map
                (fun x => if x.id == uid then { u with status := "deleted", updatedAt := st.app.now } else x)
              sessions := terminateAllActive st.app.sessions uid st.app.now "user_deleted" }⟩) := by
      simp [deleteUser, hw]
    rw [hdel]
    refine ⟨rfl, ⟨{ u with status := "deleted", updatedAt := st.app.now }, ?_, rfl, rfl, rfl⟩⟩
    exact findUser_map_update st.app.users uid _ (by simp [hid]) (by simp [hu])
  · intro uid st u hu
    have hid : u.id = uid := findUser_some_id st.app.users uid u hu
    have heq : updateLastActive uid st
        = (⟨some true, none, true⟩,
           { st with app := { st.app with
               users := st.app.users.map
                 (fun x => if x.id == uid then { u with lastActiveAt := some st.app.now, updatedAt := st.app.now } else x) } }) := by
      simp [updateLastActive, hu]
    rw [heq]
    refine ⟨rfl, ⟨{ u with lastActiveAt := some st.app.now, updatedAt := st.app.now }, ?_,
      rfl, rfl⟩⟩
    exact findUser_map_update st.app.users uid _ (by simp [hid]) (by simp [hu])

/-- Witness for C9's amended theorem: each conjunct instantiated at a
one-user database (version 0, clock 5). -/
theorem claim_C9_amended_witness :
    (∃ u2, (updateUser "u1" ⟨none, none, some "Bob", none, none, none, none⟩ none
        ⟨[], 0, ⟨[], [⟨"u1", "p1", none, none, none, none, none, none, "active", 0, 0, none,
          0⟩], 0, 5⟩⟩).1.data = some u2 ∧
      findUser ((updateUser "u1" ⟨none, none, some "Bob", none, none, none, none⟩ none
        ⟨[], 0, ⟨[], [⟨"u1", "p1", none, none, none, none, none, none, "active", 0, 0, none,
          0⟩], 0, 5⟩⟩).2).app.users "u1" = some u2 ∧
      u2.version = 0 + 1) ∧
    ((deleteUser "u1"
        ⟨[], 0, ⟨[], [⟨"u1", "p1", none, none, none, none, none, none, "active", 0, 0, none,
          0⟩], 0, 5⟩⟩).1.success = true ∧
      ∃ u2, findUser ((deleteUser "u1"
        ⟨[], 0, ⟨[], [⟨"u1", "p1", none, none, none, none, none, none, "active", 0, 0, none,
          0⟩], 0, 5⟩⟩).2).app.users "u1" = some u2 ∧
        u2.version = 0 ∧ u2.status = "deleted" ∧ u2.updatedAt = 5) ∧
    ((updateLastActive "u1"
        ⟨[], 0, ⟨[], [⟨"u1", "p1", none, none, none, none, none, none, "active", 0, 0, none,
          0⟩], 0, 5⟩⟩).1.success = true ∧
      ∃ u2, findUser ((updateLastActive "u1"
        ⟨[], 0, ⟨[], [⟨"u1", "p1", none, none, none, none, none, none, "active", 0, 0, none,
          0⟩], 0, 5⟩⟩).2).app.users "u1" = some u2 ∧
        u2.version = 0 ∧ u2.lastActiveAt = some 5) :=
  ⟨claim_C9_amended.1 "u1" ⟨none, none, some "Bob", none, none, none, none⟩ none
      ⟨[], 0, ⟨[], [⟨"u1", "p1", none, none, none, none, none, none, "active", 0, 0, none, 0⟩],
        0, 5⟩⟩
      ⟨"u1", "p1", none, none, none, none, none, none, "active", 0, 0, none, 0⟩ rfl rfl rfl,
   claim_C9_amended.2.1 "u1"
      ⟨[], 0, ⟨[], [⟨"u1", "p1", none, none, none, none, none, none, "active", 0, 0, none, 0⟩],
        0, 5⟩⟩
      ⟨"u1", "p1", none, none, none, none, none, none, "active", 0, 0, none, 0⟩ rfl rfl,
   claim_C9_amended.2.2 "u1"
      ⟨[], 0, ⟨[], [⟨"u1", "p1", none, none, none, none, none, none, "active", 0, 0, none, 0⟩],
        0, 5⟩⟩
      ⟨"u1", "p1", none, none, none, none, none, none, "active", 0, 0, none, 0⟩ rfl⟩

/-! ## Lemmas about the session reconciliation machine -/

theorem sessionRun_some (inp : CreateSessionInput) (a : AppDb) (e : Session)
    (hE : findLatestSession a.sessions inp.userId inp.deviceId = some e) :
    sessionRun inp a
      = (Except.ok
          ⟨some (reactivateSession inp a.now (a.now + (expiryDays inp : Int) * dayMs) e),
           none, true⟩,
         { a with sessions :=
            (terminateOtherDevices
              (a.sessions.map (fun s =>
                if s.id == e.id
                then reactivateSession inp a.now (a.now + (expiryDays inp : Int) * dayMs) e
                else s))
              inp.userId e.id a.now) }) := by
  simp [sessionRun, hE]

theorem sessionRun_dup (inp : CreateSessionInput) (a : AppDb)
    (hE : findLatestSession a.sessions inp.userId inp.deviceId = none)
    (hd : dupIdemKey a.sessions inp = true) :
    sessionRun inp a = (Except.error p2002IdempotencyMsg, a) := by
  simp [sessionRun, hE, hd]

theorem sessionRun_create (inp : CreateSessionInput) (a : AppDb)
    (hE : findLatestSession a.sessions inp.userId inp.deviceId = none)
    (hd : dupIdemKey a.sessions inp = false) :
    sessionRun inp a
      = (Except.ok
          ⟨some (newSessionRow inp a.nextId a.now (a.now + (expiryDays inp : Int) * dayMs)),
           none, true⟩,
         { a with
           sessions :=
             terminateAllActive a.sessions inp.userId a.now "new_session_on_different_device"
               ++ [newSessionRow inp a.nextId a.now (a.now + (expiryDays inp : Int) * dayMs)]
           nextId := a.nextId + 1 }) := by
  simp [sessionRun, hE, hd]

theorem foldl_pickLater_isSome :
    ∀ (L : List Session) (b : Session), (List.foldl pickLater (some b) L).isSome = true := by
  intro L
  induction L with
  | nil => intro b; rfl
  | cons s L ih =>
    intro b
    simp only [List.foldl_cons, pickLater]
    split
    · exact ih s
    · exact ih b

theorem findLatestSession_empty (ss : List Session) (u d : String)
    (h : findLatestSession ss u d = none) :
    ss.filter (fun s => s.userId == u && s.deviceId == d) = [] := by
  cases hf : ss.filter (fun s => s.userId == u && s.deviceId == d) with
  | nil => rfl
  | cons x xs =>
    exfalso
    unfold findLatestSession at h
    rw [hf] at h
    have : (List.foldl pickLater (pickLater none x) xs).isSome = true :=
      foldl_pickLater_isSome xs x
    rw [List.foldl_cons] at h
    rw [h] at this
    exact Bool.false_ne_true this

theorem foldl_pickLater_mem :
    ∀ (L : List Session) (acc : Option Session) (e : Session),
      List.foldl pickLater acc L = some e → acc = some e ∨ e ∈ L := by
  intro L
  induction L with
  | nil => intro acc e h; exact Or.inl h
  | cons s L ih =>
    intro acc e h
    rcases ih (pickLater acc s) e h with h1 | h2
    · cases acc with
      | none =>
        simp only [pickLater, Option.some.injEq] at h1
        exact Or.inr (h1 ▸ List.mem_cons_self s L)
      | some b =>
        simp only [pickLater] at h1
        split at h1
        · injection h1 with h1
          exact Or.inr (h1 ▸ List.mem_cons_self s L)
        · exact Or.inl h1
    · exact Or.inr (List.mem_cons_of_mem s h2)

theorem findLatestSession_mem (ss : List Session) (u d : String) (e : Session)
    (h : findLatestSession ss u d = some e) :
    e ∈ ss ∧ e.userId = u ∧ e.deviceId = d := by
  unfold findLatestSession at h
  rcases foldl_pickLater_mem _ none e h with h1 | h2
  · cases h1
  · obtain ⟨hm, hp⟩ := List.mem_filter.mp h2
    simp only [Bool.and_eq_true, beq_iff_eq] at hp
    exact ⟨hm, hp.1, hp.2⟩

theorem foldl_pickLater_map (φ : Session → Session) :
    ∀ (L : List Session) (acc : Option Session),
      (∀ x ∈ L, (φ x).createdAt = x.createdAt) →
      (∀ b, acc = some b → (φ b).createdAt = b.createdAt) →
      List.foldl pickLater (acc.map φ) (L.map φ) = (List.foldl pickLater acc L).map φ := by
  intro L
  induction L with
  | nil => intro acc _ _; rfl
  | cons s L ih =>
    intro acc hL hacc
    have hstep : pickLater (acc.map φ) (φ s) = (pickLater acc s).map φ := by
      cases acc with
      | none => rfl
      | some b =>
        have hb := hacc b rfl
        have hsx := hL s (List.mem_cons_self s L)
        simp only [pickLater, Option.map_some']
        rw [hb, hsx]
        split <;> simp
    simp only [List.map_cons, List.foldl_cons, hstep]
    refine ih (pickLater acc s) (fun x hx => hL x (List.mem_cons_of_mem s hx)) ?_
    intro b hb
    cases acc with
    | none =>
      simp only [pickLater, Option.some.injEq] at hb
      exact hb ▸ hL s (List.mem_cons_self s L)
    | some c =>
      simp only [pickLater] at hb
      split at hb
      · injection hb with hb
        exact hb ▸ hL s (List.mem_cons_self s L)
      · injection hb with hb
        exact hb ▸ hacc c rfl

theorem filterUD_map (φ : Session → Session) (u d : String) :
    ∀ (ss : List Session),
      (∀ x ∈ ss, (φ x).userId = x.userId ∧ (φ x).deviceId = x.deviceId) →
      (ss.map φ).filter (fun s => s.userId == u && s.deviceId == d)
        = (ss.filter (fun s => s.userId == u && s.deviceId == d)).map φ := by
  intro ss
  induction ss with
  | nil => intro _; rfl
  | cons x xs ih =>
    intro h
    have hx := h x (List.mem_cons_self x xs)
    have hrest := ih (fun y hy => h y (List.mem_cons_of_mem x hy))
    simp only [List.map_cons, List.filter_cons, hx.1, hx.2]
    split
    · simp only [List.map_cons, hrest]
    · exact hrest

theorem findLatestSession_map (φ : Session → Session) (ss : List Session) (u d : String)
    (h : ∀ x ∈ ss, (φ x).userId = x.userId ∧ (φ x).deviceId = x.deviceId ∧
      (φ x).createdAt = x.createdAt) :
    findLatestSession (ss.map φ) u d = (findLatestSession ss u d).map φ := by
  unfold findLatestSession
  rw [filterUD_map φ u d ss (fun x hx => ⟨(h x hx).1, (h x hx).2.1⟩)]
  have := foldl_pickLater_map φ
    (ss.filter (fun s => s.userId == u && s.deviceId == d)) none
    (fun x hx => (h x (List.mem_of_mem_filter hx)).2.2)
    (by intro b hb; cases hb)
  simpa using this

theorem session_id_inj (ss : List Session) (hnd : (ss.map Session.id).Nodup)
    (x e : Session) (hx : x ∈ ss) (he : e ∈ ss) (h : x.id = e.id) : x = e :=
  List.inj_on_of_nodup_map hnd hx he h

theorem findLatest_after_create (inp : CreateSessionInput) (a : AppDb)
    (hE : findLatestSession a.sessions inp.userId inp.deviceId = none) :
    findLatestSession
      (terminateAllActive a.sessions inp.userId a.now "new_session_on_different_device"
        ++ [newSessionRow inp a.nextId a.now (a.now + (expiryDays inp : Int) * dayMs)])
      inp.userId inp.deviceId
      = some (newSessionRow inp a.nextId a.now (a.now + (expiryDays inp : Int) * dayMs)) := by
  have hemp : a.sessions.filter
      (fun s => s.userId == inp.userId && s.deviceId == inp.deviceId) = [] :=
    findLatestSession_empty a.sessions inp.userId inp.deviceId hE
  unfold findLatestSession
  rw [List.filter_append]
  have h1 : (terminateAllActive a.sessions inp.userId a.now
      "new_session_on_different_device").filter
      (fun s => s.userId == inp.userId && s.deviceId == inp.deviceId) = [] := by
    simp only [terminateAllActive]
    rw [filterUD_map _ inp.userId inp.deviceId a.sessions ?_, hemp]
    · rfl
    · intro x hx
      split
      · exact ⟨rfl, rfl⟩
      · exact ⟨rfl, rfl⟩
  rw [h1]
  simp [newSessionRow, pickLater]

theorem sessionRun_findLatest_after (inp : CreateSessionInput) (a : AppDb)
    (r : DatabaseResponse Session) (a2 : AppDb)
    (hnd : (a.sessions.map Session.id).Nodup)
    (h : sessionRun inp a = (Except.ok r, a2)) :
    ∃ s1, r.data = some s1 ∧
      findLatestSession a2.sessions inp.userId inp.deviceId = some s1 := by
  cases hE : findLatestSession a.sessions inp.userId inp.deviceId with
  | some e =>
    obtain ⟨hmem, hu, hd⟩ := findLatestSession_mem a.sessions inp.userId inp.deviceId e hE
    rw [sessionRun_some inp a e hE, Prod.mk.injEq] at h
    injection h.1 with h1
    have h2 := h.2
    subst h1
    subst h2
    refine ⟨reactivateSession inp a.now (a.now + (expiryDays inp : Int) * dayMs) e, rfl, ?_⟩
    show findLatestSession (terminateOtherDevices _ _ _ _) _ _ = _
    simp only [terminateOtherDevices, List.map_map]
    rw [findLatestSession_map _ a.sessions inp.userId inp.deviceId ?_, hE]
    · show some _ = some _
      congr 1
      simp [reactivateSession]
    · intro x hx
      by_cases hxe : x.id = e.id
      · have hxeq : x = e := session_id_inj a.sessions hnd x e hx hmem hxe
        subst hxeq
        simp only [Function.comp_apply, beq_self_eq_true, if_pos]
        rw [if_neg (by simp [reactivateSession])]
        exact ⟨rfl, rfl, rfl⟩
      · have hxe' : (x.id == e.id) = false := by simp [hxe]
        simp only [Function.comp_apply, hxe', Bool.false_eq_true, if_false]
        split
        · exact ⟨rfl, rfl, rfl⟩
        · exact ⟨rfl, rfl, rfl⟩
  | none =>
    by_cases hdk : dupIdemKey a.sessions inp
    · rw [sessionRun_dup inp a hE hdk, Prod.mk.injEq] at h
      exact absurd h.1 (by simp)
    · have hdk' : dupIdemKey a.sessions inp = false := by simpa using hdk
      rw [sessionRun_create inp a hE hdk', Prod.mk.injEq] at h
      injection h.1 with h1
      have h2 := h.2
      subst h1
      subst h2
      refine ⟨newSessionRow inp a.nextId a.now (a.now + (expiryDays inp : Int) * dayMs),
        rfl, ?_⟩
      exact findLatest_after_create inp a hE

theorem sessionRun_length_some (inp : CreateSessionInput) (a : AppDb) (e : Session)
    (hE : findLatestSession a.sessions inp.userId inp.deviceId = some e) :
    ((sessionRun inp a).2).sessions.length = a.sessions.length := by
  rw [sessionRun_some inp a e hE]
  simp [terminateOtherDevices]

theorem sessionRun_single_active (inp : CreateSessionInput) (a : AppDb)
    (r : DatabaseResponse Session) (a2 : AppDb)
    (h : sessionRun inp a = (Except.ok r, a2)) :
    ∃ s, r = ⟨some s, none, true⟩ ∧
      s.userId = inp.userId ∧ s.deviceId = inp.deviceId ∧ s.isActive = true ∧
      s ∈ a2.sessions ∧
      (∀ t ∈ a2.sessions,
        t.userId = inp.userId → t.isActive = true → t.id = s.id) ∧
      (∀ t ∈ a.sessions, t.userId = inp.userId → t.isActive = true → t.id ≠ s.id →
        ∃ t2 ∈ a2.sessions, t2.id = t.id ∧ t2.isActive = false ∧
          t2.terminationReason = some "new_session_on_different_device") := by
  cases hE : findLatestSession a.sessions inp.userId inp.deviceId with
  | some e =>
    obtain ⟨hmem, hu, hd⟩ := findLatestSession_mem a.sessions inp.userId inp.deviceId e hE
    rw [sessionRun_some inp a e hE, Prod.mk.injEq] at h
    injection h.1 with h1
    have h2 := h.2
    subst h1
    subst h2
    refine ⟨reactivateSession inp a.now (a.now + (expiryDays inp : Int) * dayMs) e,
      rfl, hu, hd, rfl, ?_, ?_, ?_⟩
    · simp only [terminateOtherDevices, List.map_map]
      refine List.mem_map.mpr ⟨e, hmem, ?_⟩
      simp [reactivateSession]
    · intro t ht htu hta
      simp only [terminateOtherDevices, List.map_map, List.mem_map] at ht
      obtain ⟨x, hx, hgx⟩ := ht
      simp only [Function.comp_apply] at hgx
      by_cases hxe : (x.id == e.id) = true
      · rw [if_pos hxe] at hgx
        rw [if_neg (by simp [reactivateSession])] at hgx
        rw [← hgx]
      · rw [if_neg hxe] at hgx
        by_cases hc : (x.userId == inp.userId && x.isActive && x.id != e.id) = true
        · rw [if_pos hc] at hgx
          rw [← hgx] at hta
          simp [terminateRow] at hta
        · rw [if_neg hc] at hgx
          subst hgx
          show x.id = e.id
          by_contra hne
          exact hc (by simp [htu, hta, hne])
    · intro t ht htu hta htne
      have htne' : t.id ≠ e.id := htne
      have h1 : (t.id == e.id) = false := by simp [htne']
      have h2 : (t.id != e.id) = true := by simp [htne']
      refine ⟨terminateRow a.now "new_session_on_different_device" t, ?_, rfl, rfl, rfl⟩
      simp only [terminateOtherDevices, List.map_map]
      refine List.mem_map.mpr ⟨t, ht, ?_⟩
      simp only [Function.comp_apply, h1, Bool.false_eq_true, if_false]
      rw [if_pos (by simp [htu, hta, h2])]
  | none =>
    by_cases hdk : dupIdemKey a.sessions inp
    · rw [sessionRun_dup inp a hE hdk, Prod.mk.injEq] at h
      exact absurd h.1 (by simp)
    · have hdk' : dupIdemKey a.sessions inp = false := by simpa using hdk
      rw [sessionRun_create inp a hE hdk', Prod.mk.injEq] at h
      injection h.1 with h1
      have h2 := h.2
      subst h1
      subst h2
      refine ⟨newSessionRow inp a.nextId a.now (a.now + (expiryDays inp : Int) * dayMs),
        rfl, rfl, rfl, rfl, ?_, ?_, ?_⟩
      · exact List.mem_append.mpr (Or.inr (List.mem_singleton.mpr rfl))
      · intro t ht htu hta
        rcases List.mem_append.mp ht with hl | hr
        · simp only [terminateAllActive, List.mem_map] at hl
          obtain ⟨x, hx, hgx⟩ := hl
          by_cases hc : (x.userId == inp.userId && x.isActive) = true
          · rw [if_pos hc] at hgx
            rw [← hgx] at hta
            simp [terminateRow] at hta
          · rw [if_neg hc] at hgx
            subst hgx
            simp [htu, hta] at hc
        · rw [List.mem_singleton.mp hr]
      · intro t ht htu hta htne
        refine ⟨terminateRow a.now "new_session_on_different_device" t,
          List.mem_append.mpr (Or.inl ?_), rfl, rfl, rfl⟩
        simp only [terminateAllActive, List.mem_map]
        exact ⟨t, ht, by rw [if_pos (by simp [htu, hta])]⟩

/-! ## Claim C1 (single-active-session invariant) -/

/-- C1, confirmed.  After a successful `getOrCreateSession(U, D)` call —
the call can also fail, on lock contention or on a duplicate idempotency
key — the returned session `s` is for `(U, D)`, is Active and stored;
afterwards at most one stored session of `U` is Active (every Active one
is `s`); and every session of `U` that was Active before the call and is
not `s` is now stored Terminated with reason
`new_session_on_different_device`. -/
theorem claim_C1 (inp : CreateSessionInput) (st : Db)
    (hs : (getOrCreateSession inp st).1.success = true) :
    ∃ s, (getOrCreateSession inp st).1.data = some s ∧
      s.userId = inp.userId ∧ s.deviceId = inp.deviceId ∧ s.isActive = true ∧
      s ∈ ((getOrCreateSession inp st).2).app.sessions ∧
      (∀ t ∈ ((getOrCreateSession inp st).2).app.sessions,
        t.userId = inp.userId → t.isActive = true → t.id = s.id) ∧
      (∀ t ∈ st.app.sessions, t.userId = inp.userId → t.isActive = true → t.id ≠ s.id →
        ∃ t2 ∈ ((getOrCreateSession inp st).2).app.sessions, t2.id = t.id ∧
          t2.isActive = false ∧
          t2.terminationReason = some "new_session_on_different_device") := by
  obtain ⟨st1, r, hsess, hrun, hres⟩ := getOrCreateSession_success_inv inp st hs
  obtain ⟨s, hr_eq, hu, hd, ha, hmem, hone, hterm⟩ :=
    sessionRun_single_active inp st1.app r (((getOrCreateSession inp st).2).app) hrun
  refine ⟨s, ?_, hu, hd, ha, hmem, hone, ?_⟩
  · rw [hres, hr_eq]
  · rw [← hsess]
    exact hterm

/-- Witness for C1 at the spec's concrete scenario: `getOrCreateSession
(u1, d1)` on the empty database, then `getOrCreateSession(u1, d2)` — the
second call succeeds (by `rfl`) and yields an Active `d2` session, the
only Active session of `u1`, and the previously Active `d1` session is
Terminated with reason `new_session_on_different_device`. -/
theorem claim_C1_witness :
    ∃ s, (getOrCreateSession demoInputD2 demoDb1).1.data = some s ∧
      s.userId = demoInputD2.userId ∧ s.deviceId = demoInputD2.deviceId ∧
      s.isActive = true ∧
      s ∈ ((getOrCreateSession demoInputD2 demoDb1).2).app.sessions ∧
      (∀ t ∈ ((getOrCreateSession demoInputD2 demoDb1).2).app.sessions,
        t.userId = demoInputD2.userId → t.isActive = true → t.id = s.id) ∧
      (∀ t ∈ demoDb1.app.sessions,
        t.userId = demoInputD2.userId → t.isActive = true → t.id ≠ s.id →
        ∃ t2 ∈ ((getOrCreateSession demoInputD2 demoDb1).2).app.sessions, t2.id = t.id ∧
          t2.isActive = false ∧
          t2.terminationReason = some "new_session_on_different_device") :=
  claim_C1 demoInputD2 demoDb1 rfl

/-! ## Claim C2 (idempotency per (userId, deviceId)) -/

/-- C2, confirmed.  When the per-(user,device) lock is free, the stored
session ids are distinct and the first call succeeds (a first login
whose idempotency key collides with another row's fails instead):
(a) calling `getOrCreateSession` twice in succession returns sessions
with the same id (and the same `createdAt`), and the second call —
always a reactivation, hence infallible — does not change the number of
stored session rows; (b) whenever a row for the pair already exists in
any state, the call returns that row reactivated — same id, `createdAt`
unchanged, `isActive` true, `terminatedAt` and `terminationReason`
cleared, `expiresAt` refreshed to now + expiresInDays — and the number
of stored rows is unchanged (no insert). -/
theorem claim_C2 (inp : CreateSessionInput) (st : Db)
    (hlock : lookupLock st.locks (sessionLockKey inp.userId inp.deviceId) = none)
    (hnd : (st.app.sessions.map Session.id).Nodup)
    (hs1 : (getOrCreateSession inp st).1.success = true) :
    (∃ s1 s2,
      (getOrCreateSession inp st).1.data = some s1 ∧
      (getOrCreateSession inp (getOrCreateSession inp st).2).1.data = some s2 ∧
      s2.id = s1.id ∧ s2.createdAt = s1.createdAt ∧
      ((getOrCreateSession inp (getOrCreateSession inp st).2).2).app.sessions.length
        = ((getOrCreateSession inp st).2).app.sessions.length) ∧
    (∀ e, findLatestSession st.app.sessions inp.userId inp.deviceId = some e →
      ∃ s1, (getOrCreateSession inp st).1.data = some s1 ∧
        s1.id = e.id ∧ s1.createdAt = e.createdAt ∧ s1.isActive = true ∧
        s1.terminatedAt = none ∧ s1.terminationReason = none ∧
        s1.expiresAt = st.app.now + (expiryDays inp : Int) * dayMs ∧
        ((getOrCreateSession inp st).2).app.sessions.length = st.app.sessions.length) := by
  constructor
  · cases hrc : (sessionRun inp st.app).1 with
    | error e =>
      exfalso
      rw [getOrCreateSession_lookup_none inp st hlock] at hs1
      simp only [hrc] at hs1
      simp at hs1
    | ok r =>
      have hfull : sessionRun inp st.app = (Except.ok r, (sessionRun inp st.app).2) := by
        rw [← hrc]
      have heval1 := getOrCreateSession_run_ok inp st r (sessionRun inp st.app).2 hlock hfull
      obtain ⟨s1, hs1d, hfind2⟩ :=
        sessionRun_findLatest_after inp st.app r (sessionRun inp st.app).2 hnd hfull
      have hfull2 := sessionRun_some inp (sessionRun inp st.app).2 s1 hfind2
      have hst2 : (getOrCreateSession inp st).2
          = ⟨st.locks, st.ownerSeed + 1, (sessionRun inp st.app).2⟩ := by rw [heval1]
      have heval2 := getOrCreateSession_run_ok inp
        ⟨st.locks, st.ownerSeed + 1, (sessionRun inp st.app).2⟩ _ _ hlock hfull2
      refine ⟨s1, reactivateSession inp ((sessionRun inp st.app).2).now
          (((sessionRun inp st.app).2).now + (expiryDays inp : Int) * dayMs) s1,
        ?_, ?_, rfl, rfl, ?_⟩
      · rw [heval1]; exact hs1d
      · rw [hst2, heval2]
      · rw [hst2, heval2]
        simp [terminateOtherDevices]
  · intro e hE
    have hfull := sessionRun_some inp st.app e hE
    have heval := getOrCreateSession_run_ok inp st _ _ hlock hfull
    rw [heval]
    exact ⟨reactivateSession inp st.app.now (st.app.now + (expiryDays inp : Int) * dayMs) e,
      rfl, rfl, rfl, rfl, rfl, rfl, rfl, by simp [terminateOtherDevices]⟩

/-- Witness for C2: a database holding one terminated `(u1, d1)` row;
both halves of the theorem instantiated there (the pre-existing row is
`demoSession1`, found as the latest row for the pair by `rfl`). -/
theorem claim_C2_witness :
    (∃ s1 s2,
      (getOrCreateSession demoInputD1 demoDb2).1.data = some s1 ∧
      (getOrCreateSession demoInputD1 (getOrCreateSession demoInputD1 demoDb2).2).1.data
        = some s2 ∧
      s2.id = s1.id ∧ s2.createdAt = s1.createdAt ∧
      ((getOrCreateSession demoInputD1
          (getOrCreateSession demoInputD1 demoDb2).2).2).app.sessions.length
        = ((getOrCreateSession demoInputD1 demoDb2).2).app.sessions.length) ∧
    (∃ s1, (getOrCreateSession demoInputD1 demoDb2).1.data = some s1 ∧
      s1.id = demoSession1.id ∧ s1.createdAt = demoSession1.createdAt ∧
      s1.isActive = true ∧ s1.terminatedAt = none ∧ s1.terminationReason = none ∧
      s1.expiresAt = demoDb2.app.now + (expiryDays demoInputD1 : Int) * dayMs ∧
      ((getOrCreateSession demoInputD1 demoDb2).2).app.sessions.length
        = demoDb2.app.sessions.length) :=
  ⟨(claim_C2 demoInputD1 demoDb2 rfl (by decide) rfl).1,
   (claim_C2 demoInputD1 demoDb2 rfl (by decide) rfl).2 demoSession1 rfl⟩

end ZeroLight
